import Mathlib

/-!
Shallow embedding of `GrpcStreamingReader`
(`Firestore/core/src/firebase/firestore/remote/grpc_streaming_reader.cc`).

The reader adapts a bidirectional gRPC stream into a one-shot call: it sends
one request, accumulates response chunks, and resolves a completion callback
exactly once with either all chunks or a failure status.

Modelling choices:
* `grpc::ByteBuffer` is an opaque byte payload, modelled as `List Nat`.
* The stored callback closure `callback_` is modelled by an identity tag
  (`Option Nat`): `none` models an unset or cleared `std::function`, and an
  invocation is recorded as an observable `Action.invokeCallback` carrying the
  tag and the `CompletionResult` argument.
* The request payload `request_` is `Option ByteBuffer`: `some r` holds the
  original payload, `none` models the consumed (moved-from, empty) buffer left
  behind by `std::move(request_)` in `OnStreamStart`.
* Calls the reader makes into the `GrpcStream` driver (`Start`, `WriteLast`,
  `Finish`) and callback invocations are recorded as a list of `Action`s.
* `OnStreamFinish` returns `Option`: `none` models the `HARD_ASSERT` firing
  (fatal, non-recoverable abort) when no callback is registered.
-/

namespace StreamingReader

/-- Opaque binary payload (`grpc::ByteBuffer`). -/
abbrev ByteBuffer := List Nat

/-- `util::Status`: an ok flag plus an opaque code and message, which the
reader never interprets beyond `status.ok()`. -/
structure Status where
  ok : Bool
  code : Nat
  message : String
deriving Repr, DecidableEq

/-- The argument passed to the completion callback: in the source the
callback takes a `StatusOr<std::vector<grpc::ByteBuffer>>`, built either from
`responses_` (success) or from the failing `status`. -/
inductive CompletionResult where
  | success (responses : List ByteBuffer)
  | failure (status : Status)
deriving Repr, DecidableEq

/-- Observable effects of the reader: calls into the owned `GrpcStream`
driver (`stream_->Start()`, `stream_->WriteLast(...)`, `stream_->Finish()`)
and invocations of the stored completion callback. -/
inductive Action where
  | streamStart
  | writeLast (payload : Option ByteBuffer)
  | streamFinish
  | invokeCallback (cb : Nat) (result : CompletionResult)
deriving Repr, DecidableEq

/-- The mutable state of a `GrpcStreamingReader` instance: the stored
callback slot `callback_`, the pending request payload `request_`, and the
accumulated response chunks `responses_`. -/
structure Reader where
  callback_ : Option Nat
  request_ : Option ByteBuffer
  responses_ : List ByteBuffer
deriving Repr, DecidableEq

/-- The constructor: stores the request; no callback yet, no responses, and
no network activity (the emitted action list is empty by construction). -/
def mkReader (request : ByteBuffer) : Reader :=
  { callback_ := none, request_ := some request, responses_ := [] }

/-- `GrpcStreamingReader::Start`: `callback_ = std::move(callback); stream_->Start();`.
No guard checks whether a callback is already stored. -/
def Start (callback : Nat) (s : Reader) : Reader × List Action :=
  ({ s with callback_ := some callback }, [Action.streamStart])

/-- `GrpcStreamingReader::Cancel`: `stream_->Finish();` — delegates to the
driver and touches no reader state. -/
def Cancel (s : Reader) : Reader × List Action :=
  (s, [Action.streamFinish])

/-- `GrpcStreamingReader::OnStreamStart`:
`stream_->WriteLast(std::move(request_));` — sends whatever `request_`
currently holds and leaves the moved-from (consumed) payload behind. -/
def OnStreamStart (s : Reader) : Reader × List Action :=
  ({ s with request_ := none }, [Action.writeLast s.request_])

/-- `GrpcStreamingReader::OnStreamRead`: `responses_.push_back(message);` —
appends unconditionally, with no check of the lifecycle phase. -/
def OnStreamRead (message : ByteBuffer) (s : Reader) : Reader × List Action :=
  ({ s with responses_ := s.responses_ ++ [message] }, [])

/-- `GrpcStreamingReader::OnStreamFinish`: `HARD_ASSERT(callback_, ...)`,
then invokes the callback with `responses_` on ok status or with `status`
on failure, then clears the callback (`callback_ = {};`). `none` models the
hard assertion firing. Note that `responses_` itself is passed as-is and is
not cleared or moved from. -/
def OnStreamFinish (status : Status) (s : Reader) : Option (Reader × List Action) :=
  match s.callback_ with
  | none => none
  | some cb =>
      let result := if status.ok then CompletionResult.success s.responses_
                    else CompletionResult.failure status
      some ({ s with callback_ := none }, [Action.invokeCallback cb result])

/-- The events an instance can receive: the two public operations and the
three driver-originated events, all serialized on one queue. -/
inductive Event where
  | start (callback : Nat)
  | cancel
  | onStart
  | onRead (message : ByteBuffer)
  | onFinish (status : Status)
deriving Repr, DecidableEq

/-- Dispatch one event to the corresponding reader member function. -/
def step (s : Reader) (e : Event) : Option (Reader × List Action) :=
  match e with
  | .start cb => some (Start cb s)
  | .cancel => some (Cancel s)
  | .onStart => some (OnStreamStart s)
  | .onRead m => some (OnStreamRead m s)
  | .onFinish st => OnStreamFinish st s

/-- Run a sequence of events, accumulating the emitted actions; `none` as
soon as any event hits the fatal assertion. -/
def run (s : Reader) : List Event → Option (Reader × List Action)
  | [] => some (s, [])
  | e :: es =>
      match step s e with
      | none => none
      | some (s', acts) =>
          match run s' es with
          | none => none
          | some (s'', acts') => some (s'', acts ++ acts')

/-- Is this event an on-finish? -/
def isFinish : Event → Bool
  | .onFinish _ => true
  | _ => false

/-- Is this action a callback invocation? -/
def isInvoke : Action → Bool
  | .invokeCallback _ _ => true
  | _ => false

/-- Is this action a `WriteLast` call into the driver? -/
def isWriteLast : Action → Bool
  | .writeLast _ => true
  | _ => false

/-! ### Helper lemmas about `run` -/

/-- Running a concatenation of traces composes the runs. -/
theorem run_append (es₁ es₂ : List Event) : ∀ s : Reader,
    run s (es₁ ++ es₂) =
      match run s es₁ with
      | none => none
      | some (s₁, a₁) =>
          match run s₁ es₂ with
          | none => none
          | some (s₂, a₂) => some (s₂, a₁ ++ a₂) := by
  induction es₁ with
  | nil =>
      intro s
      simp only [List.nil_append, run]
      cases run s es₂ with
      | none => rfl
      | some p => cases p; simp
  | cons e es ih =>
      intro s
      simp only [List.cons_append, run, List.append_eq]
      cases step s e with
      | none => rfl
      | some p =>
          cases p with
          | mk s' a =>
              dsimp only
              rw [ih s']
              cases run s' es with
              | none => rfl
              | some q =>
                  cases q with
                  | mk s₁ a₁ =>
                      dsimp only
                      cases run s₁ es₂ with
                      | none => rfl
                      | some r => cases r; simp [List.append_assoc]

/-- Any event other than an on-finish succeeds (never hits the assertion),
invokes no callback, and keeps the callback slot occupied if it was. -/
theorem step_noFinish (s : Reader) (e : Event) (h : isFinish e = false) :
    ∃ s' acts, step s e = some (s', acts) ∧ acts.filter isInvoke = [] ∧
      (s.callback_.isSome → s'.callback_.isSome) := by
  cases e with
  | start cb => exact ⟨_, _, rfl, rfl, fun _ => rfl⟩
  | cancel => exact ⟨_, _, rfl, rfl, fun hs => hs⟩
  | onStart => exact ⟨_, _, rfl, rfl, fun hs => hs⟩
  | onRead m => exact ⟨_, _, rfl, rfl, fun hs => hs⟩
  | onFinish st => simp [isFinish] at h

/-- A finish-free trace succeeds, invokes no callback, and keeps the
callback slot occupied if it was. -/
theorem run_noFinish (es : List Event) (h : ∀ e ∈ es, isFinish e = false) :
    ∀ s : Reader, s.callback_.isSome →
    ∃ s' acts, run s es = some (s', acts) ∧ acts.filter isInvoke = [] ∧
      s'.callback_.isSome := by
  induction es with
  | nil => exact fun s hs => ⟨s, [], rfl, rfl, hs⟩
  | cons e es ih =>
      intro s hs
      obtain ⟨s₁, a₁, hstep, hfa₁, hcb₁⟩ :=
        step_noFinish s e (h e (List.mem_cons_self e es))
      obtain ⟨s₂, a₂, hrun, hfa₂, hcb₂⟩ :=
        ih (fun e' he' => h e' (List.mem_cons_of_mem e he')) s₁ (hcb₁ hs)
      refine ⟨s₂, a₁ ++ a₂, ?_, ?_, hcb₂⟩
      · simp [run, hstep, hrun]
      · simp [List.filter_append, hfa₁, hfa₂]

/-- Running the driver-contract tail (reads then the single finish) from a
state with a registered callback: all chunks are appended in order, the
callback fires once with the accumulated chunks (ok) or the status
(failure), and the callback slot is cleared. -/
theorem run_reads_finish (cb : Nat) (cs : List ByteBuffer) (st : Status) :
    ∀ s : Reader, s.callback_ = some cb →
    run s (cs.map Event.onRead ++ [Event.onFinish st]) =
      some ({ s with callback_ := none, responses_ := s.responses_ ++ cs },
        [Action.invokeCallback cb
          (if st.ok then CompletionResult.success (s.responses_ ++ cs)
           else CompletionResult.failure st)]) := by
  induction cs with
  | nil =>
      intro s hs
      simp [run, step, OnStreamFinish, hs]
  | cons c cs ih =>
      intro s hs
      have hs' : ({ s with responses_ := s.responses_ ++ [c] } : Reader).callback_
          = some cb := hs
      simp only [List.map_cons, List.cons_append, run, step, OnStreamRead,
        List.append_eq]
      rw [ih _ hs']
      simp [List.append_assoc]

/-! ### Claim theorems -/

/-- C1: for every reachable event sequence that starts the reader and ends
in a single on-finish, the completion callback is invoked exactly once; the
callback slot is cleared right after the invocation, so a second on-finish
on the resulting state hits the fatal hard-assertion path instead of a
second callback invocation. -/
theorem callback_exactly_once (cb : Nat) (req : ByteBuffer)
    (es : List Event) (st st₂ : Status)
    (h : ∀ e ∈ es, isFinish e = false) :
    ∃ s' acts,
      run (mkReader req) (Event.start cb :: (es ++ [Event.onFinish st])) =
        some (s', acts) ∧
      (acts.filter isInvoke).length = 1 ∧
      s'.callback_ = none ∧
      step s' (Event.onFinish st₂) = none := by
  obtain ⟨s₁, a₁, hrun₁, hfa₁, hcb₁⟩ :=
    run_noFinish es h
      { callback_ := some cb, request_ := some req, responses_ := [] } rfl
  obtain ⟨cb₁, hcb⟩ := Option.isSome_iff_exists.mp hcb₁
  refine ⟨{ s₁ with callback_ := none },
    Action.streamStart :: (a₁ ++
      [Action.invokeCallback cb₁
        (if st.ok then CompletionResult.success s₁.responses_
         else CompletionResult.failure st)]), ?_, ?_, rfl, ?_⟩
  · simp only [run, step, Start, mkReader]
    rw [run_append, hrun₁]
    simp [run, step, OnStreamFinish, hcb]
  · simp [List.filter_append, hfa₁, isInvoke]
  · simp [step, OnStreamFinish]

/-- Witness for C1 at the concrete trace start, on-start, two reads, one
ok finish, followed by a second finish attempt. -/
theorem callback_exactly_once_witness :
    (∀ e ∈ ([Event.onStart, Event.onRead [1], Event.onRead [2]] : List Event),
        isFinish e = false) ∧
    (∃ s' acts,
      run (mkReader [9]) (Event.start 0 ::
          ([Event.onStart, Event.onRead [1], Event.onRead [2]] ++
            [Event.onFinish ⟨true, 0, ""⟩])) = some (s', acts) ∧
      (acts.filter isInvoke).length = 1 ∧
      s'.callback_ = none ∧
      step s' (Event.onFinish ⟨false, 14, ""⟩) = none) :=
  ⟨by decide,
   callback_exactly_once 0 [9]
     [Event.onStart, Event.onRead [1], Event.onRead [2]]
     ⟨true, 0, ""⟩ ⟨false, 14, ""⟩ (by decide)⟩

/-- C2: reads of c₁, …, cₙ followed by an ok on-finish resolve the callback
exactly once with `Success [c₁, …, cₙ]` — exactly the accumulated chunks, in
arrival order, with no reordering, omission, or duplication. -/
theorem success_delivers_chunks_in_order (cb : Nat) (req : ByteBuffer)
    (cs : List ByteBuffer) (st : Status) (hok : st.ok = true) :
    run (mkReader req)
        ([Event.start cb, Event.onStart] ++ cs.map Event.onRead ++
          [Event.onFinish st]) =
      some ({ callback_ := none, request_ := none, responses_ := cs },
        [Action.streamStart, Action.writeLast (some req),
         Action.invokeCallback cb (CompletionResult.success cs)]) := by
  have h := run_reads_finish cb cs st
      { callback_ := some cb, request_ := none, responses_ := [] } rfl
  simp only [List.cons_append, List.nil_append, List.append_assoc]
  simp only [run, step, Start, OnStreamStart, mkReader]
  rw [h]
  simp [hok]

/-- Witness for C2 at the concrete chunks [1] and [2]. -/
theorem success_delivers_chunks_in_order_witness :
    ((⟨true, 0, ""⟩ : Status).ok = true) ∧
    run (mkReader [9])
        ([Event.start 0, Event.onStart] ++ [[1], [2]].map Event.onRead ++
          [Event.onFinish ⟨true, 0, ""⟩]) =
      some ({ callback_ := none, request_ := none, responses_ := [[1], [2]] },
        [Action.streamStart, Action.writeLast (some [9]),
         Action.invokeCallback 0 (CompletionResult.success [[1], [2]])]) :=
  ⟨rfl, success_delivers_chunks_in_order 0 [9] [[1], [2]] ⟨true, 0, ""⟩ rfl⟩

/-- C3: reads followed by a failing on-finish resolve the callback with
`Failure status`, the status passed through unchanged; the accumulated
chunks do not appear in the delivered result (the `Failure` payload carries
only the status). -/
theorem failure_discards_chunks (cb : Nat) (req : ByteBuffer)
    (cs : List ByteBuffer) (st : Status) (hfail : st.ok = false) :
    run (mkReader req)
        ([Event.start cb, Event.onStart] ++ cs.map Event.onRead ++
          [Event.onFinish st]) =
      some ({ callback_ := none, request_ := none, responses_ := cs },
        [Action.streamStart, Action.writeLast (some req),
         Action.invokeCallback cb (CompletionResult.failure st)]) := by
  have h := run_reads_finish cb cs st
      { callback_ := some cb, request_ := none, responses_ := [] } rfl
  simp only [List.cons_append, List.nil_append, List.append_assoc]
  simp only [run, step, Start, OnStreamStart, mkReader]
  rw [h]
  simp [hfail]

/-- Witness for C3: two reads then a failing finish. -/
theorem failure_discards_chunks_witness :
    ((⟨false, 14, ""⟩ : Status).ok = false) ∧
    run (mkReader [9])
        ([Event.start 0, Event.onStart] ++ [[1], [2]].map Event.onRead ++
          [Event.onFinish ⟨false, 14, ""⟩]) =
      some ({ callback_ := none, request_ := none, responses_ := [[1], [2]] },
        [Action.streamStart, Action.writeLast (some [9]),
         Action.invokeCallback 0 (CompletionResult.failure ⟨false, 14, ""⟩)]) :=
  ⟨rfl, failure_discards_chunks 0 [9] [[1], [2]] ⟨false, 14, ""⟩ rfl⟩

/-- C4: over any driver-contract trace, the driver's WriteLast is called
exactly once and carries the exact original request payload; moreover a
WriteLast action can only be emitted by processing the on-start event, so
the request is never sent before the stream is ready. -/
theorem request_sent_exactly_once (cb : Nat) (req : ByteBuffer)
    (cs : List ByteBuffer) (st : Status) :
    (∃ s' acts,
      run (mkReader req)
          ([Event.start cb, Event.onStart] ++ cs.map Event.onRead ++
            [Event.onFinish st]) = some (s', acts) ∧
      acts.filter isWriteLast = [Action.writeLast (some req)]) ∧
    (∀ (s : Reader) (e : Event) (p : Reader × List Action),
      step s e = some p → ∀ pl, Action.writeLast pl ∈ p.2 →
      e = Event.onStart) := by
  constructor
  · have h := run_reads_finish cb cs st
        { callback_ := some cb, request_ := none, responses_ := [] } rfl
    refine ⟨{ callback_ := none, request_ := none, responses_ := cs },
      [Action.streamStart, Action.writeLast (some req),
       Action.invokeCallback cb
         (if st.ok then CompletionResult.success cs
          else CompletionResult.failure st)], ?_, ?_⟩
    · simp only [List.cons_append, List.nil_append, List.append_assoc]
      simp only [run, step, Start, OnStreamStart, mkReader]
      rw [h]
      simp
    · cases hok : st.ok <;> simp [isWriteLast]
  · intro s e p hstep pl hmem
    cases e with
    | onStart => rfl
    | start cb' =>
        simp only [step] at hstep
        injection hstep with h'
        subst h'
        simp [Start] at hmem
    | cancel =>
        simp only [step] at hstep
        injection hstep with h'
        subst h'
        simp [Cancel] at hmem
    | onRead m =>
        simp only [step] at hstep
        injection hstep with h'
        subst h'
        simp [OnStreamRead] at hmem
    | onFinish st' =>
        cases hc : s.callback_ with
        | none => simp [step, OnStreamFinish, hc] at hstep
        | some cb'' =>
            simp only [step, OnStreamFinish, hc] at hstep
            injection hstep with h'
            subst h'
            simp at hmem

/-- Witness for C4: the trace part at one read, and the only-on-start part
at a concrete on-start step whose actions contain a WriteLast. -/
theorem request_sent_exactly_once_witness :
    (∃ s' acts,
      run (mkReader [9])
          ([Event.start 0, Event.onStart] ++ [[1]].map Event.onRead ++
            [Event.onFinish ⟨true, 0, ""⟩]) = some (s', acts) ∧
      acts.filter isWriteLast = [Action.writeLast (some [9])]) ∧
    Event.onStart = Event.onStart :=
  ⟨(request_sent_exactly_once 0 [9] [[1]] ⟨true, 0, ""⟩).1,
   (request_sent_exactly_once 0 [9] [[1]] ⟨true, 0, ""⟩).2 (mkReader [9])
     Event.onStart (OnStreamStart (mkReader [9])) rfl (some [9])
     (by simp [OnStreamStart, mkReader])⟩

/-- C5: Cancel only delegates to the driver's Finish: it emits exactly the
terminate action, never a callback invocation, and leaves the stored
callback, the accumulated chunks, and the pending request unchanged. -/
theorem cancel_delegates_only (s : Reader) :
    Cancel s = (s, [Action.streamFinish]) ∧
    (Cancel s).2.filter isInvoke = [] :=
  ⟨rfl, rfl⟩

/-- C6: an on-finish with no registered callback hits the fatal
hard-assertion path (modelled by `none`); whenever a callback is registered
the fatal branch is unreachable and the event resolves normally. -/
theorem finish_without_callback_fatal (st : Status) (s : Reader) :
    (s.callback_ = none → OnStreamFinish st s = none) ∧
    (∀ cb, s.callback_ = some cb →
      OnStreamFinish st s =
        some ({ s with callback_ := none },
          [Action.invokeCallback cb
            (if st.ok then CompletionResult.success s.responses_
             else CompletionResult.failure st)])) := by
  constructor
  · intro h; simp [OnStreamFinish, h]
  · intro cb h; simp [OnStreamFinish, h]

/-- Witness for C6: a freshly constructed reader (no callback) is fatal on
on-finish; a reader with a registered callback resolves. -/
theorem finish_without_callback_fatal_witness :
    OnStreamFinish ⟨false, 1, ""⟩ (mkReader [2]) = none ∧
    OnStreamFinish ⟨false, 1, ""⟩
        { callback_ := some 0, request_ := some [2], responses_ := [] } =
      some ({ callback_ := none, request_ := some [2], responses_ := [] },
        [Action.invokeCallback 0 (CompletionResult.failure ⟨false, 1, ""⟩)]) :=
  ⟨(finish_without_callback_fatal ⟨false, 1, ""⟩ (mkReader [2])).1 rfl,
   (finish_without_callback_fatal ⟨false, 1, ""⟩
       { callback_ := some 0, request_ := some [2], responses_ := [] }).2 0 rfl⟩

/-- C7 counterexample: `OnStreamRead` has no lifecycle guard. An on-read
delivered before on-start appends its chunk while the request is still
unsent, and an on-read delivered after on-finish appends its chunk after
the instance has completed. -/
theorem read_outside_window_appended :
    (run (mkReader [9]) [Event.start 0, Event.onRead [5]] =
      some ({ callback_ := some 0, request_ := some [9], responses_ := [[5]] },
        [Action.streamStart]) ∧
     ({ callback_ := some 0, request_ := some [9],
        responses_ := [[5]] } : Reader).request_ = some [9]) ∧
    run (mkReader [9])
        [Event.start 0, Event.onStart, Event.onFinish ⟨true, 0, ""⟩,
         Event.onRead [5]] =
      some ({ callback_ := none, request_ := none, responses_ := [[5]] },
        [Action.streamStart, Action.writeLast (some [9]),
         Action.invokeCallback 0 (CompletionResult.success [])]) :=
  ⟨⟨rfl, rfl⟩, rfl⟩

/-- C7 amended: chunks are appended to the accumulated sequence exactly by
on-read events and by nothing else; the code itself does not restrict when
— an out-of-contract read is still appended — but along the contract prefix
start-then-on-start the sequence is still empty at the moment the request
is sent. -/
theorem appends_only_on_read :
    (∀ (s : Reader) (m : ByteBuffer),
      (OnStreamRead m s).1.responses_ = s.responses_ ++ [m]) ∧
    (∀ (s : Reader) (cb : Nat), (Start cb s).1.responses_ = s.responses_) ∧
    (∀ s : Reader, (Cancel s).1.responses_ = s.responses_) ∧
    (∀ s : Reader, (OnStreamStart s).1.responses_ = s.responses_) ∧
    (∀ (s : Reader) (st : Status) (p : Reader × List Action),
      OnStreamFinish st s = some p → p.1.responses_ = s.responses_) ∧
    (∀ (req : ByteBuffer) (cb : Nat),
      ∃ p, run (mkReader req) [Event.start cb, Event.onStart] = some p ∧
        p.1.responses_ = [] ∧ p.1.request_ = none) := by
  refine ⟨fun s m => rfl, fun s cb => rfl, fun s => rfl, fun s => rfl,
    ?_, fun req cb => ⟨_, rfl, rfl, rfl⟩⟩
  intro s st p hp
  cases hc : s.callback_ with
  | none => simp [OnStreamFinish, hc] at hp
  | some cb =>
      simp only [OnStreamFinish, hc] at hp
      injection hp with h'
      subst h'
      rfl

/-- Witness for C7's amended theorem: the on-finish frame condition at a
concrete resolving state. -/
theorem appends_only_on_read_witness :
    (({ callback_ := none, request_ := none, responses_ := [[1]] } : Reader),
      [Action.invokeCallback 0 (CompletionResult.success [[1]])]).1.responses_ =
      ({ callback_ := some 0, request_ := none,
         responses_ := [[1]] } : Reader).responses_ :=
  appends_only_on_read.2.2.2.2.1
    { callback_ := some 0, request_ := none, responses_ := [[1]] }
    ⟨true, 0, ""⟩
    ({ callback_ := none, request_ := none, responses_ := [[1]] },
      [Action.invokeCallback 0 (CompletionResult.success [[1]])]) rfl

/-- C8 counterexample: after a successful on-finish the reader still holds
the accumulated chunks — the source passes `responses_` to the callback
without moving from it or clearing it, so the stored chunk sequence is not
relinquished at resolution time. -/
theorem responses_retained_counterexample :
    OnStreamFinish ⟨true, 0, ""⟩
        { callback_ := some 0, request_ := none, responses_ := [[3]] } =
      some ({ callback_ := none, request_ := none, responses_ := [[3]] },
        [Action.invokeCallback 0 (CompletionResult.success [[3]])]) ∧
    ({ callback_ := none, request_ := none,
       responses_ := [[3]] } : Reader).responses_ = [[3]] :=
  ⟨rfl, rfl⟩

/-- C8 amended: on a successful on-finish the callback's Success payload
receives the accumulated chunks, but the reader retains its stored chunk
sequence unchanged after resolution — the chunks are copied into the
payload, not relinquished. -/
theorem success_payload_copies_responses (s : Reader) (st : Status) (cb : Nat)
    (hcb : s.callback_ = some cb) (hok : st.ok = true) :
    OnStreamFinish st s =
      some ({ s with callback_ := none },
        [Action.invokeCallback cb (CompletionResult.success s.responses_)]) ∧
    ({ s with callback_ := none } : Reader).responses_ = s.responses_ := by
  refine ⟨?_, rfl⟩
  simp [OnStreamFinish, hcb, hok]

/-- Witness for C8's amended theorem at a concrete two-chunk state. -/
theorem success_payload_copies_responses_witness :
    (OnStreamFinish ⟨true, 0, ""⟩
        { callback_ := some 1, request_ := none, responses_ := [[4], [5]] } =
      some ({ callback_ := none, request_ := none, responses_ := [[4], [5]] },
        [Action.invokeCallback 1 (CompletionResult.success [[4], [5]])])) ∧
    ({ callback_ := none, request_ := none,
       responses_ := [[4], [5]] } : Reader).responses_ =
      ({ callback_ := some 1, request_ := none,
         responses_ := [[4], [5]] } : Reader).responses_ :=
  success_payload_copies_responses
    { callback_ := some 1, request_ := none, responses_ := [[4], [5]] }
    ⟨true, 0, ""⟩ 1 rfl rfl

/-- C9: Start unconditionally overwrites the stored callback slot and calls
the driver's start again; in particular a second start on the same instance
neither aborts nor fails. -/
theorem second_start_overwrites (s : Reader) (cb : Nat) :
    Start cb s = ({ s with callback_ := some cb }, [Action.streamStart]) ∧
    (∀ (req : ByteBuffer) (cb₁ : Nat),
      run (mkReader req) [Event.start cb₁, Event.start cb] =
        some ({ callback_ := some cb, request_ := some req, responses_ := [] },
          [Action.streamStart, Action.streamStart])) :=
  ⟨rfl, fun _ _ => rfl⟩

/-- C10: the first on-start consumes the stored request (the moved-from
slot is empty afterwards), and a second on-start would send the consumed
payload, not the original request. -/
theorem request_consumed_after_start (s : Reader) (req : ByteBuffer)
    (cb : Nat) :
    run (mkReader req) [Event.start cb, Event.onStart] =
      some ({ callback_ := some cb, request_ := none, responses_ := [] },
        [Action.streamStart, Action.writeLast (some req)]) ∧
    (OnStreamStart s).1.request_ = none ∧
    (OnStreamStart s).2 = [Action.writeLast s.request_] ∧
    OnStreamStart ((OnStreamStart s).1) =
      ((OnStreamStart s).1, [Action.writeLast none]) :=
  ⟨rfl, rfl, rfl, rfl⟩

end StreamingReader
